import Mathlib

/-!
Verification of the `dfufile` crate (DFU firmware-file parsing library).

The source is shallowly embedded: a file on disk is a `List Nat` of bytes,
fallible operations return `Except Err`, Rust `String` values are represented
by their UTF-8 byte encoding (`List Nat`), and `String::from_utf8_lossy` is
modelled by `utf8Lossy` below, which re-encodes the lossily decoded string.
Machine integers are `Nat`; wrap-around is made explicit where it matters.
-/

set_option maxRecDepth 10000

/-! ### Byte-level helpers (little-endian decoding, as in `u16::from_le_bytes`
and `u32::from_le_bytes`) -/

/-- `u16::from_le_bytes [a, b]`. -/
def le16 (a b : Nat) : Nat := a + 256 * b

/-- `u32::from_le_bytes [a, b, c, d]`. -/
def le32 (a b c d : Nat) : Nat := a + 256 * (b + 256 * (c + 256 * d))

/-! ### `String::from_utf8_lossy`

Modelled as a function from raw bytes to the UTF-8 encoding of the resulting
string.  Valid UTF-8 sequences are copied verbatim; each maximal invalid
subpart (per the Unicode substitution used by Rust's std) is replaced by the
three-byte encoding `EF BF BD` of U+FFFD. -/

/-- Replacement character U+FFFD, UTF-8 encoded. -/
def repl : List Nat := [0xEF, 0xBF, 0xBD]

/-- Is `b` a UTF-8 continuation byte (`0x80..=0xBF`)? -/
def isCont (b : Nat) : Bool := 0x80 ≤ b && b ≤ 0xBF

/-- Allowed first continuation byte after a three-byte lead `b`
(`0xE0` demands `0xA0..=0xBF`, `0xED` demands `0x80..=0x9F`). -/
def cont1ok3 (b c1 : Nat) : Bool :=
  if b = 0xE0 then 0xA0 ≤ c1 && c1 ≤ 0xBF
  else if b = 0xED then 0x80 ≤ c1 && c1 ≤ 0x9F
  else isCont c1

/-- Allowed first continuation byte after a four-byte lead `b`
(`0xF0` demands `0x90..=0xBF`, `0xF4` demands `0x80..=0x8F`). -/
def cont1ok4 (b c1 : Nat) : Bool :=
  if b = 0xF0 then 0x90 ≤ c1 && c1 ≤ 0xBF
  else if b = 0xF4 then 0x80 ≤ c1 && c1 ≤ 0x8F
  else isCont c1

/-- Fuel-driven worker for `utf8Lossy`; each step consumes at least one input
byte, so fuel equal to the input length makes the cutoff unreachable. -/
def utf8LossyF : Nat → List Nat → List Nat
  | 0, _ => []
  | _, [] => []
  | fuel + 1, b :: rest =>
    if b < 0x80 then b :: utf8LossyF fuel rest
    else if b < 0xC2 then repl ++ utf8LossyF fuel rest
    else if b ≤ 0xDF then
      match rest with
      | [] => repl
      | c1 :: rest' =>
        if isCont c1 then b :: c1 :: utf8LossyF fuel rest'
        else repl ++ utf8LossyF fuel (c1 :: rest')
    else if b ≤ 0xEF then
      match rest with
      | [] => repl
      | c1 :: rest' =>
        if cont1ok3 b c1 then
          match rest' with
          | [] => repl
          | c2 :: rest'' =>
            if isCont c2 then b :: c1 :: c2 :: utf8LossyF fuel rest''
            else repl ++ utf8LossyF fuel (c2 :: rest'')
        else repl ++ utf8LossyF fuel (c1 :: rest')
    else if b ≤ 0xF4 then
      match rest with
      | [] => repl
      | c1 :: rest' =>
        if cont1ok4 b c1 then
          match rest' with
          | [] => repl
          | c2 :: rest'' =>
            if isCont c2 then
              match rest'' with
              | [] => repl
              | c3 :: rest''' =>
                if isCont c3 then b :: c1 :: c2 :: c3 :: utf8LossyF fuel rest'''
                else repl ++ utf8LossyF fuel (c3 :: rest''')
            else repl ++ utf8LossyF fuel (c2 :: rest'')
        else repl ++ utf8LossyF fuel (c1 :: rest')
    else repl ++ utf8LossyF fuel rest

/-- `String::from_utf8_lossy`, as a map on UTF-8 byte encodings. -/
def utf8Lossy (l : List Nat) : List Nat := utf8LossyF l.length l

/-- `str::is_char_boundary`, phrased on the UTF-8 byte encoding: position `n`
is a boundary when it is `0`, the total length, or the byte there is not a
continuation byte.  Also demands `n ≤ length` (a byte index past the end makes
slicing panic). -/
def isCharBoundaryB (s : List Nat) (n : Nat) : Bool :=
  n == s.length || (n < s.length && (s.getD n 0 < 0x80 || 0xC0 ≤ s.getD n 0))

/-! ### Errors

`crate::Error` and `dfuse::Error` from the source, merged into one type
(the source wraps both in `anyhow`), plus `ioError` for propagated I/O
failures (failed `read_exact` / negative seek) and `sliceFault` marking the
place where `TargetPrefix::from_bytes` would panic on a string slice whose
end is not a character boundary. -/

inductive Err
  | invalidSuffixSignature
  | insufficientFileSize
  | invalidPrefixSignature
  | invalidTargetPrefixSignature
  | dfuseInsufficientFileSize
  | ioError
  | sliceFault
  deriving DecidableEq, Repr

/-- `file.read_exact` on a buffer of length `len` after seeking to `pos`:
returns exactly those bytes, or fails once the range leaves the file. -/
def readExact (file : List Nat) (pos len : Nat) : Except Err (List Nat) :=
  if pos + len ≤ file.length then .ok ((file.drop pos).take len) else .error .ioError

/-! ### Suffix (lib.rs) -/

/-- `SUFFIX_LENGTH`. -/
def SUFFIX_LENGTH : Nat := 16

/-- `Suffix` from lib.rs; the signature string is kept as UTF-8 bytes. -/
structure Suffix where
  bcdDevice : Nat
  idProduct : Nat
  idVendor : Nat
  bcdDFU : Nat
  ucDFUSignature : List Nat
  bLength : Nat
  dwCRC : Nat
  deriving DecidableEq, Repr

/-- The expected suffix signature `"UFD"` ("DFU" reversed). -/
def ufdSig : List Nat := [85, 70, 68]

/-- `Suffix::from_bytes`. -/
def Suffix.fromBytes (buffer : List Nat) : Suffix :=
  { bcdDevice := le16 (buffer.getD 0 0) (buffer.getD 1 0)
    idProduct := le16 (buffer.getD 2 0) (buffer.getD 3 0)
    idVendor := le16 (buffer.getD 4 0) (buffer.getD 5 0)
    bcdDFU := le16 (buffer.getD 6 0) (buffer.getD 7 0)
    ucDFUSignature := utf8Lossy ((buffer.drop 8).take 3)
    bLength := buffer.getD 11 0
    dwCRC := le32 (buffer.getD 12 0) (buffer.getD 13 0)
      (buffer.getD 14 0) (buffer.getD 15 0) }

/-- `Suffix::from_file`: seek to `End(-16)` (fails on a shorter file), read
the last 16 bytes, decode, and reject a signature other than `"UFD"`. -/
def Suffix.fromFile (file : List Nat) : Except Err Suffix :=
  if file.length < SUFFIX_LENGTH then .error .ioError
  else
    let buffer := (file.drop (file.length - SUFFIX_LENGTH)).take SUFFIX_LENGTH
    let data := Suffix.fromBytes buffer
    if data.ucDFUSignature = ufdSig then .ok data else .error .invalidSuffixSignature

/-! ### DfuSe prefix (dfuse.rs, struct `Prefix`) -/

/-- `PREFIX_LENGTH`. -/
def PREFIX_LENGTH : Nat := 11

/-- The `"DfuSe"` signature bytes. -/
def dfuSeSig : List Nat := [68, 102, 117, 83, 101]

/-- dfuse.rs struct `Prefix` (renamed: `prefix` is a Lean keyword). -/
structure DfusePrefix where
  szSignature : List Nat
  bVersion : Nat
  DFUImageSize : Nat
  bTargets : Nat
  deriving DecidableEq, Repr

/-- `Prefix::from_bytes`. -/
def DfusePrefix.fromBytes (buffer : List Nat) : DfusePrefix :=
  { szSignature := utf8Lossy (buffer.take 5)
    bVersion := buffer.getD 5 0
    DFUImageSize := le32 (buffer.getD 6 0) (buffer.getD 7 0)
      (buffer.getD 8 0) (buffer.getD 9 0)
    bTargets := buffer.getD 10 0 }

/-- `Prefix::from_file`: rewind, read 11 bytes, decode, check the signature. -/
def DfusePrefix.fromFile (file : List Nat) : Except Err DfusePrefix :=
  match readExact file 0 PREFIX_LENGTH with
  | .error e => .error e
  | .ok buffer =>
    let data := DfusePrefix.fromBytes buffer
    if data.szSignature = dfuSeSig then .ok data else .error .invalidPrefixSignature

/-! ### Target prefix (dfuse.rs) -/

/-- `TARGET_PREFIX_LENGTH`. -/
def TARGET_PREFIX_LENGTH : Nat := 274

/-- The `"Target"` signature bytes. -/
def targetSig : List Nat := [84, 97, 114, 103, 101, 116]

/-- dfuse.rs struct `TargetPrefix`; strings kept as UTF-8 bytes. -/
structure TargetPrefix where
  szSignature : List Nat
  bAlternateSetting : Nat
  bTargetNamed : Nat
  szTargetName : List Nat
  dwTargetSize : Nat
  dwNbElements : Nat
  deriving DecidableEq, Repr

/-- `TargetPrefix::from_bytes`.  The name is the lossy conversion of bytes
`11..266` truncated at the byte index of the first null character, or at 255
when no null is found.  Rust slices the lossy `String` at that byte index,
which panics when the index is not a character boundary of the converted
string; that panic is modelled by `none`. -/
def TargetPrefix.fromBytes (buffer : List Nat) : Option TargetPrefix :=
  let targetNameFull := utf8Lossy ((buffer.drop 11).take 255)
  let targetNameLen :=
    if targetNameFull.any (fun b => b == 0)
    then targetNameFull.findIdx (fun b => b == 0)
    else 255
  if isCharBoundaryB targetNameFull targetNameLen then
    some
      { szSignature := utf8Lossy (buffer.take 6)
        bAlternateSetting := buffer.getD 6 0
        bTargetNamed := buffer.getD 7 0
        szTargetName := targetNameFull.take targetNameLen
        dwTargetSize := le32 (buffer.getD 266 0) (buffer.getD 267 0)
          (buffer.getD 268 0) (buffer.getD 269 0)
        dwNbElements := le32 (buffer.getD 270 0) (buffer.getD 271 0)
          (buffer.getD 272 0) (buffer.getD 273 0) }
  else none

/-- `TargetPrefix::from_file`: seek to the cursor, read 274 bytes, advance the
cursor by 274, decode, check the signature.  Returns the updated cursor. -/
def TargetPrefix.fromFile (file : List Nat) (filePos : Nat) :
    Except Err (TargetPrefix × Nat) :=
  match readExact file filePos TARGET_PREFIX_LENGTH with
  | .error e => .error e
  | .ok buffer =>
    match TargetPrefix.fromBytes buffer with
    | none => .error .sliceFault
    | some data =>
      if data.szSignature = targetSig
      then .ok (data, filePos + TARGET_PREFIX_LENGTH)
      else .error .invalidTargetPrefixSignature

/-! ### Image element (dfuse.rs) -/

/-- `IMAGE_ELEMENT_LENGTH`. -/
def IMAGE_ELEMENT_LENGTH : Nat := 8

/-- dfuse.rs struct `ImageElement`. -/
structure ImageElement where
  dwElementAddress : Nat
  dwElementSize : Nat
  dataPosition : Nat
  deriving DecidableEq, Repr

/-- `ImageElement::from_bytes`. -/
def ImageElement.fromBytes (buffer : List Nat) (dataPosition : Nat) : ImageElement :=
  { dwElementAddress := le32 (buffer.getD 0 0) (buffer.getD 1 0)
      (buffer.getD 2 0) (buffer.getD 3 0)
    dwElementSize := le32 (buffer.getD 4 0) (buffer.getD 5 0)
      (buffer.getD 6 0) (buffer.getD 7 0)
    dataPosition := dataPosition }

/-- `ImageElement::from_file`: seek to the cursor, read the 8 descriptor
bytes, advance the cursor by 8, record it as the data position, then skip the
payload by advancing the cursor by the declared element size. -/
def ImageElement.fromFile (file : List Nat) (filePos : Nat) :
    Except Err (ImageElement × Nat) :=
  match readExact file filePos IMAGE_ELEMENT_LENGTH with
  | .error e => .error e
  | .ok buffer =>
    let pos := filePos + IMAGE_ELEMENT_LENGTH
    let data := ImageElement.fromBytes buffer pos
    .ok (data, pos + data.dwElementSize)

/-- Wrapping 32-bit subtraction, as released Rust evaluates `a - b` on `u32`
(for `a b < 2^32`). -/
def wsub32 (a b : Nat) : Nat := (a + (2 ^ 32 - b % 2 ^ 32)) % 2 ^ 32

/-- The single `file.read(buffer)` of `ImageElement::read_at`: on a regular
file it returns at most the buffer capacity and at most the bytes available
from the seek position to end of file. -/
def fileRead (file : List Nat) (pos cap : Nat) : Nat :=
  min cap (file.length - pos)

/-- `ImageElement::read_at`, returning the reported number of valid bytes:
seek to `data_position + position`, read into a buffer of capacity `cap`,
then clip the count to `dwElementSize - position` (a wrapping `u32`
subtraction). -/
def ImageElement.readAt (e : ImageElement) (file : List Nat)
    (position cap : Nat) : Nat :=
  let filePos := e.dataPosition + position
  let readSize := fileRead file filePos cap
  min readSize (wsub32 e.dwElementSize position)

/-! ### Image and content (dfuse.rs) -/

/-- dfuse.rs struct `Image`. -/
structure Image where
  targetPrefix : TargetPrefix
  imageElements : List ImageElement
  deriving DecidableEq, Repr

/-- The `for _ in 0..target_prefix.dwNbElements` loop of `Image::from_file`:
parse `n` consecutive image elements, threading the cursor. -/
def parseElements (file : List Nat) : Nat → Nat → Except Err (List ImageElement × Nat)
  | 0, pos => .ok ([], pos)
  | n + 1, pos =>
    match ImageElement.fromFile file pos with
    | .error e => .error e
    | .ok (elem, pos') =>
      match parseElements file n pos' with
      | .error e => .error e
      | .ok (elems, pos'') => .ok (elem :: elems, pos'')

/-- `Image::from_file`. -/
def Image.fromFile (file : List Nat) (filePos : Nat) : Except Err (Image × Nat) :=
  match TargetPrefix.fromFile file filePos with
  | .error e => .error e
  | .ok (tp, pos') =>
    match parseElements file tp.dwNbElements pos' with
    | .error e => .error e
    | .ok (elems, pos'') => .ok ({ targetPrefix := tp, imageElements := elems }, pos'')

/-- The `for _ in 0..prefix.bTargets` loop of `Content::from_file`. -/
def parseImages (file : List Nat) : Nat → Nat → Except Err (List Image × Nat)
  | 0, pos => .ok ([], pos)
  | n + 1, pos =>
    match Image.fromFile file pos with
    | .error e => .error e
    | .ok (img, pos') =>
      match parseImages file n pos' with
      | .error e => .error e
      | .ok (imgs, pos'') => .ok (img :: imgs, pos'')

/-- dfuse.rs struct `Content` (the `prefix` field is renamed, `prefix` being a
Lean keyword). -/
structure DfuseContent where
  dfusePrefix : DfusePrefix
  images : List Image
  deriving DecidableEq, Repr

/-- dfuse.rs `Content::from_file`: reject files shorter than prefix + suffix,
parse the prefix, then `bTargets` images starting the cursor at 11. -/
def DfuseContent.fromFile (file : List Nat) : Except Err DfuseContent :=
  if file.length < PREFIX_LENGTH + 16 then .error .dfuseInsufficientFileSize
  else
    match DfusePrefix.fromFile file with
    | .error e => .error e
    | .ok pfx =>
      match parseImages file pfx.bTargets PREFIX_LENGTH with
      | .error e => .error e
      | .ok (imgs, _) => .ok { dfusePrefix := pfx, images := imgs }

/-- dfuse.rs `Content::find_image_by_alt`. -/
def DfuseContent.findImageByAlt (c : DfuseContent) (altSetting : Nat) : Option Image :=
  c.images.find? (fun image => image.targetPrefix.bAlternateSetting == altSetting)

/-- dfuse.rs `Content::find_image_by_name` (the name is UTF-8 bytes). -/
def DfuseContent.findImageByName (c : DfuseContent) (name : List Nat) : Option Image :=
  c.images.find? (fun image => image.targetPrefix.szTargetName == name)

/-- dfuse.rs `detect`: rewind, read the first 5 bytes, parse the suffix, and
report whether both the `"DfuSe"` signature and the `0x011A` spec code hold. -/
def detect (file : List Nat) : Except Err Bool :=
  match readExact file 0 5 with
  | .error e => .error e
  | .ok signature =>
    match Suffix.fromFile file with
    | .error e => .error e
    | .ok suffix => .ok (signature == dfuSeSig && suffix.bcdDFU == 0x011A)

/-! ### Top level (lib.rs) -/

/-- lib.rs enum `Content`. -/
inductive FileContent
  | plain
  | dfuSe (content : DfuseContent)
  deriving DecidableEq, Repr

/-- lib.rs struct `DfuFile` (the path and OS handle carry no parsing
information; the byte contents stand in for the handle). -/
structure DfuFile where
  file : List Nat
  content : FileContent
  suffix : Suffix
  deriving DecidableEq, Repr

/-- `DfuFile::open`: reject files smaller than the suffix, run detection,
parse the DfuSe content when detected, then parse the suffix. -/
def DfuFile.open (file : List Nat) : Except Err DfuFile :=
  if file.length < SUFFIX_LENGTH then .error .insufficientFileSize
  else
    match detect file with
    | .error e => .error e
    | .ok isDfuse =>
      let contentRes : Except Err FileContent :=
        if isDfuse then
          match DfuseContent.fromFile file with
          | .error e => .error e
          | .ok c => .ok (FileContent.dfuSe c)
        else .ok FileContent.plain
      match contentRes with
      | .error e => .error e
      | .ok content =>
        match Suffix.fromFile file with
        | .error e => .error e
        | .ok suffix => .ok { file := file, content := content, suffix := suffix }

/-! ### CRC32 engine -/

/-- One step of the table generator: shift right, folding in the reflected
polynomial `0xEDB88320` when the low bit is set. -/
def crcTableStep (c : Nat) : Nat :=
  if c % 2 = 1 then 0xEDB88320 ^^^ (c / 2) else c / 2

/-- Modelled from the spec: the 256-entry reflected CRC32 table (the module
`crc32` is declared by lib.rs but its source file is not present); entry `i`
is eight generator steps applied to `i`. -/
def crc32Table (i : Nat) : Nat := crcTableStep^[8] i

/-- Modelled from the spec: fold one byte into the (pre-complemented)
accumulator via the table. -/
def crcByte (crc b : Nat) : Nat := crc32Table ((crc ^^^ b) % 256) ^^^ (crc / 256)

/-- Modelled from the spec: `crc32::crc32(buffer, crc)` — the streaming,
incremental CRC32 update with the initial-complement convention: complement
the incoming accumulator, fold every byte through the table, complement the
result. -/
def crc32 (buffer : List Nat) (crc : Nat) : Nat :=
  (buffer.foldl crcByte (crc ^^^ 0xFFFFFFFF)) ^^^ 0xFFFFFFFF

/-- The chunk loop of `DfuFile::calc_crc` on the body bytes still to process:
each iteration reads `min 1024 remaining` bytes (`read_size`/`read_exact` in
the source) and feeds them to the engine; it stops when nothing remains.
Fuel-driven for kernel evaluability; every iteration consumes at least one
byte, so fuel equal to the body length suffices. -/
def calcCrcLoopF : Nat → List Nat → Nat → Nat
  | 0, _, crc => crc
  | fuel + 1, body, crc =>
    if body.isEmpty then crc
    else calcCrcLoopF fuel (body.drop 1024) (crc32 (body.take 1024) crc)

/-- `DfuFile::calc_crc`: stream the whole file except its last 4 bytes
through the engine in 1024-byte chunks, starting from accumulator 0, and
complement the final accumulator. -/
def DfuFile.calcCrc (file : List Nat) : Nat :=
  let body := file.take (file.length - 4)
  calcCrcLoopF body.length body 0 ^^^ 0xFFFFFFFF

/-! ### `Default` impls from the source, and derived measures -/

/-- `TargetPrefix::default` from dfuse.rs. -/
def TargetPrefix.default : TargetPrefix :=
  { szSignature := targetSig, bAlternateSetting := 0, bTargetNamed := 0,
    szTargetName := [], dwTargetSize := 0, dwNbElements := 0 }

/-- `ImageElement::default` from dfuse.rs. -/
def ImageElement.default : ImageElement :=
  { dwElementAddress := 0, dwElementSize := 0, dataPosition := 0 }

/-- `Image::default` from dfuse.rs. -/
def Image.default : Image :=
  { targetPrefix := TargetPrefix.default, imageElements := [] }

/-- Bytes consumed by one element: its 8-byte descriptor plus its payload. -/
def elementSpan (e : ImageElement) : Nat := IMAGE_ELEMENT_LENGTH + e.dwElementSize

/-- Bytes consumed by one image: its 274-byte target header plus its
elements. -/
def imageSpan (img : Image) : Nat :=
  TARGET_PREFIX_LENGTH + (img.imageElements.map elementSpan).sum

/-- Whether a parsed content is the DfuSe variant. -/
def FileContent.isDfuSe : FileContent → Bool
  | .plain => false
  | .dfuSe _ => true

/-- The suffix spec-version code of a file, when its suffix parses. -/
def suffixSpecCode (file : List Nat) : Option Nat :=
  match Suffix.fromFile file with
  | .ok s => some s.bcdDFU
  | .error _ => none

/-! ### Concrete inputs used by witnesses and counterexamples -/

/-- A 295-byte DfuSe file: prefix (1 target), one target header (1 element),
one element descriptor with a 2-byte payload. -/
def c1file : List Nat :=
  dfuSeSig ++ [1] ++ [0, 0, 0, 0] ++ [1] ++
  targetSig ++ [0] ++ [0] ++ [0, 0, 0] ++ List.replicate 255 0 ++
  [0, 0, 0, 0] ++ [1, 0, 0, 0] ++
  [0, 0, 0, 0] ++ [2, 0, 0, 0] ++ [9, 9]

/-- The structured representation `c1file` parses to. -/
def c1content : DfuseContent :=
  { dfusePrefix := { szSignature := dfuSeSig, bVersion := 1, DFUImageSize := 0, bTargets := 1 }
    images :=
      [ { targetPrefix :=
            { szSignature := targetSig, bAlternateSetting := 0, bTargetNamed := 0,
              szTargetName := [], dwTargetSize := 0, dwNbElements := 1 }
          imageElements :=
            [ { dwElementAddress := 0, dwElementSize := 2, dataPosition := 293 } ] } ] }

/-- A 274-byte target-header buffer whose name region is 255 `0xFF` bytes:
no null byte and nothing valid as UTF-8. -/
def c2buf : List Nat :=
  List.replicate 11 0 ++ List.replicate 255 255 ++ List.replicate 8 0

/-- A 274-byte target-header buffer whose name region is `"Main"`, a null,
then 250 non-zero garbage bytes. -/
def c2wbuf : List Nat :=
  List.replicate 11 7 ++ ([77, 97, 105, 110] ++ [0] ++ List.replicate 250 42) ++
  List.replicate 8 0

/-- A 274-byte target-header buffer whose name region is `'A'` followed by
254 `0xFF` bytes: the lossy conversion turns each `0xFF` into a three-byte
replacement character, so byte index 255 of the converted string falls inside
a character. -/
def c9buf : List Nat :=
  List.replicate 11 0 ++ (65 :: List.replicate 254 255) ++ List.replicate 8 0

/-- A 16-byte plain DFU file (suffix only, spec code 0x0100). -/
def c7file : List Nat := [0, 0, 0, 0, 0, 0, 0, 1] ++ ufdSig ++ [16, 0, 0, 0, 0]

/-- What `c7file` opens to. -/
def c7df : DfuFile :=
  { file := c7file, content := FileContent.plain,
    suffix := { bcdDevice := 0, idProduct := 0, idVendor := 0, bcdDFU := 256,
                ucDFUSignature := ufdSig, bLength := 16, dwCRC := 0 } }

/-- An image with alternate setting 1, name `"M"`. -/
def c8imageA : Image :=
  { targetPrefix :=
      { szSignature := targetSig, bAlternateSetting := 1, bTargetNamed := 1,
        szTargetName := [77], dwTargetSize := 0, dwNbElements := 0 }
    imageElements := [] }

/-- An image with alternate setting 2, name `"N"`. -/
def c8imageB : Image :=
  { targetPrefix :=
      { szSignature := targetSig, bAlternateSetting := 2, bTargetNamed := 1,
        szTargetName := [78], dwTargetSize := 0, dwNbElements := 0 }
    imageElements := [] }

/-- A two-image content for lookup tests. -/
def c8content : DfuseContent :=
  { dfusePrefix := { szSignature := dfuSeSig, bVersion := 1, DFUImageSize := 0, bTargets := 2 }
    images := [c8imageA, c8imageB] }

/-- A 285-byte DfuSe file whose single 274-byte target header ends exactly at
the end of the file, so the header's `dwNbElements` field (bytes 281..285)
coincides with the suffix's stored CRC32 field. -/
def c10file : List Nat :=
  dfuSeSig ++ [1] ++ [0, 0, 0, 0] ++ [1] ++
  targetSig ++ [0] ++ [0] ++ [0, 0, 0] ++
  (List.replicate 253 0 ++ [26, 1]) ++
  [85, 70, 68, 16] ++ [0, 0, 0, 0]

/-- A 12-byte suffix head (everything before the stored CRC): spec code
0x0100, signature `"UFD"`, length byte 16. -/
def c10s12 : List Nat := [0, 0, 0, 0, 0, 0, 0, 1] ++ ufdSig ++ [16]

/-! ### Decidable equality for `Except` results -/

instance {ε α : Type} [DecidableEq ε] [DecidableEq α] : DecidableEq (Except ε α) :=
  fun x y =>
    match x, y with
    | .error e, .error f =>
      if h : e = f then isTrue (by rw [h])
      else isFalse (fun hc => h (Except.error.inj hc))
    | .ok a, .ok b =>
      if h : a = b then isTrue (by rw [h])
      else isFalse (fun hc => h (Except.ok.inj hc))
    | .error _, .ok _ => isFalse (fun hc => Except.noConfusion hc)
    | .ok _, .error _ => isFalse (fun hc => Except.noConfusion hc)

/-! ### Theorems -/


/-- XOR by the same mask twice is the identity. -/
theorem xor_mask_cancel (x k : Nat) : x ^^^ k ^^^ k = x := by
  rw [Nat.xor_assoc, Nat.xor_self, Nat.xor_zero]

/-- The incremental contract of the engine: feeding a concatenation equals
feeding the pieces in order, threading the accumulator. -/
theorem crc32_append (a b : List Nat) (c : Nat) :
    crc32 (a ++ b) c = crc32 b (crc32 a c) := by
  simp [crc32, List.foldl_append, xor_mask_cancel]

/-- With enough fuel, the 1024-byte chunk loop of `calc_crc` computes the
same accumulator as a single engine call over all the bytes. -/
theorem calcCrcLoopF_eq_crc32 (fuel : Nat) :
    ∀ (l : List Nat) (c : Nat), l.length ≤ fuel → calcCrcLoopF fuel l c = crc32 l c := by
  induction fuel with
  | zero =>
    intro l c h
    have hl : l = [] := List.eq_nil_of_length_eq_zero (Nat.le_zero.mp h)
    subst hl
    simp [calcCrcLoopF, crc32, xor_mask_cancel]
  | succ n ih =>
    intro l c h
    by_cases he : l = []
    · subst he
      simp [calcCrcLoopF, crc32, xor_mask_cancel]
    · rw [calcCrcLoopF, if_neg (by simpa [List.isEmpty_iff] using he)]
      rw [ih (l.drop 1024) (crc32 (l.take 1024) c) ?hfuel]
      · rw [← crc32_append, List.take_append_drop]
      case hfuel =>
        have h1 : 1 ≤ l.length := by
          cases l with
          | nil => exact absurd rfl he
          | cons a t => simp
        simp only [List.length_drop]
        omega

/-- C4: `DfuFile::calc_crc` folds exactly the bytes from offset 0 up to
(file length − 4) into the CRC32 accumulator, starting from accumulator 0,
and returns the accumulator XORed with 0xFFFFFFFF; processing the body in
1024-byte chunks equals processing all body bytes in a single engine call.
(The size hypothesis keeps the statement inside the domain where natural
subtraction agrees with the source's `u64` arithmetic on `file_size - 4`.) -/
theorem calcCrc_folds_body_chunk_independent (file : List Nat)
    (_h : 4 ≤ file.length) :
    DfuFile.calcCrc file = crc32 (file.take (file.length - 4)) 0 ^^^ 0xFFFFFFFF := by
  simp only [DfuFile.calcCrc]
  rw [calcCrcLoopF_eq_crc32 _ _ _ (Nat.le_refl _)]

/-- Witness for C4 at a concrete 20-byte file. -/
theorem calcCrc_folds_body_chunk_independent_witness :
    DfuFile.calcCrc (List.range 20) =
      crc32 ((List.range 20).take ((List.range 20).length - 4)) 0 ^^^ 0xFFFFFFFF :=
  calcCrc_folds_body_chunk_independent (List.range 20) (by decide)

/-- C6: a file shorter than 16 bytes is rejected by `DfuFile::open` with
`InsufficientFileSize` (before any signature is inspected), and a file
detected as DfuSe but shorter than 27 bytes is rejected by
`Content::from_file` with the DfuSe `InsufficientFileSize` (before the
container prefix is decoded). -/
theorem open_rejects_short_files (file : List Nat) :
    (file.length < 16 → DfuFile.open file = Except.error Err.insufficientFileSize) ∧
    (detect file = Except.ok true → file.length < 27 →
      DfuseContent.fromFile file = Except.error Err.dfuseInsufficientFileSize) := by
  constructor
  · intro h
    simp [DfuFile.open, SUFFIX_LENGTH, h]
  · intro _ h
    simp only [DfuseContent.fromFile, PREFIX_LENGTH]
    rw [if_pos (by omega)]

/-- Witness for C6: a 15-byte file, and a 21-byte file that detection
classifies as DfuSe. -/
theorem open_rejects_short_files_witness :
    DfuFile.open (List.replicate 15 0) = Except.error Err.insufficientFileSize ∧
    DfuseContent.fromFile
        [68, 102, 117, 83, 101, 0, 0, 0, 0, 0, 0, 26, 1, 85, 70, 68, 0, 0, 0, 0, 0] =
      Except.error Err.dfuseInsufficientFileSize :=
  ⟨(open_rejects_short_files (List.replicate 15 0)).1 (by decide),
   (open_rejects_short_files _).2 (by decide) (by decide)⟩

/-- C5: for a 16-byte buffer whose signature field (offsets 8..11) decodes to
`"UFD"`, suffix parsing succeeds and returns exactly the little-endian field
values of the buffer; when the signature decodes to anything else it fails
with `InvalidSuffixSignature`. -/
theorem suffix_parse_exact_fields (buffer : List Nat) (hlen : buffer.length = 16) :
    (utf8Lossy ((buffer.drop 8).take 3) = ufdSig →
      Suffix.fromFile buffer = Except.ok
        { bcdDevice := le16 (buffer.getD 0 0) (buffer.getD 1 0)
          idProduct := le16 (buffer.getD 2 0) (buffer.getD 3 0)
          idVendor := le16 (buffer.getD 4 0) (buffer.getD 5 0)
          bcdDFU := le16 (buffer.getD 6 0) (buffer.getD 7 0)
          ucDFUSignature := ufdSig
          bLength := buffer.getD 11 0
          dwCRC := le32 (buffer.getD 12 0) (buffer.getD 13 0)
            (buffer.getD 14 0) (buffer.getD 15 0) }) ∧
    (utf8Lossy ((buffer.drop 8).take 3) ≠ ufdSig →
      Suffix.fromFile buffer = Except.error Err.invalidSuffixSignature) := by
  have hb : buffer.take 16 = buffer := List.take_of_length_le hlen.le
  constructor <;> intro h <;>
    simp [Suffix.fromFile, SUFFIX_LENGTH, hlen, hb, Suffix.fromBytes, h]

/-- Witness for C5 at a concrete 16-byte buffer. -/
theorem suffix_parse_exact_fields_witness :
    Suffix.fromFile [1, 2, 3, 4, 5, 6, 0, 1, 85, 70, 68, 16, 9, 9, 9, 9] =
      Except.ok
        { bcdDevice := le16 1 2, idProduct := le16 3 4, idVendor := le16 5 6,
          bcdDFU := le16 0 1, ucDFUSignature := ufdSig, bLength := 16,
          dwCRC := le32 9 9 9 9 } :=
  (suffix_parse_exact_fields [1, 2, 3, 4, 5, 6, 0, 1, 85, 70, 68, 16, 9, 9, 9, 9]
    (by decide)).1 (by decide)


/-- Counterexample to C3 as stated: an element of declared size 0; requesting
relative position 1 (past the declared size) with a 2-byte buffer over a
4-byte file returns 2 bytes, exceeding the element's declared size minus the
requested position (the `u32` subtraction `dwElementSize - position` wraps). -/
theorem readAt_exceeds_when_position_past_size :
    ¬ (ImageElement.readAt
        { dwElementAddress := 0, dwElementSize := 0, dataPosition := 0 }
        [7, 7, 7, 7] 1 2 ≤
       ({ dwElementAddress := 0, dwElementSize := 0, dataPosition := 0 }
          : ImageElement).dwElementSize - 1) := by
  decide

/-- C3 (amended with `position ≤ dwElementSize`): `read_at` reports at most
`dwElementSize - position` valid bytes, no matter how many bytes the
underlying read produced. -/
theorem readAt_clipped_to_element (e : ImageElement) (file : List Nat)
    (position cap : Nat) (hsize : e.dwElementSize < 2 ^ 32)
    (hpos : position ≤ e.dwElementSize) :
    e.readAt file position cap ≤ e.dwElementSize - position := by
  have hw : wsub32 e.dwElementSize position = e.dwElementSize - position := by
    unfold wsub32
    have hp : position % 2 ^ 32 = position :=
      Nat.mod_eq_of_lt (lt_of_le_of_lt hpos hsize)
    rw [hp]
    rw [show e.dwElementSize + (2 ^ 32 - position) =
          2 ^ 32 + (e.dwElementSize - position) by omega]
    rw [Nat.add_mod_left]
    exact Nat.mod_eq_of_lt (by omega)
  simp only [ImageElement.readAt, hw]
  exact min_le_right _ _

/-- Witness for C3 (amended): element of size 3, position 1, capacity 10,
over a 6-byte file. -/
theorem readAt_clipped_to_element_witness :
    ImageElement.readAt
        { dwElementAddress := 0, dwElementSize := 3, dataPosition := 0 }
        [1, 2, 3, 4, 5, 6] 1 10 ≤ 3 - 1 :=
  readAt_clipped_to_element
    { dwElementAddress := 0, dwElementSize := 3, dataPosition := 0 }
    [1, 2, 3, 4, 5, 6] 1 10 (by norm_num) (by norm_num)

/-- `List.find?` returns an element satisfying the predicate and is the first
such: everything before it in the list fails the predicate. -/
theorem find?_first_match {α : Type} (p : α → Bool) :
    ∀ (l : List α) (x : α), l.find? p = some x →
      p x = true ∧ ∃ l₁ l₂, l = l₁ ++ x :: l₂ ∧ ∀ y ∈ l₁, p y = false := by
  intro l
  induction l with
  | nil => intro x h; simp [List.find?] at h
  | cons a t ih =>
    intro x h
    by_cases hp : p a
    · rw [List.find?_cons_of_pos _ hp] at h
      cases h
      exact ⟨hp, [], t, rfl, by simp⟩
    · rw [List.find?_cons_of_neg _ (by simpa using hp)] at h
      obtain ⟨hx, l₁, l₂, rfl, hall⟩ := ih x h
      refine ⟨hx, a :: l₁, l₂, rfl, ?_⟩
      intro y hy
      rcases List.mem_cons.mp hy with rfl | hy'
      · simpa using hp
      · exact hall y hy'

/-- C8: `find_image_by_alt` and `find_image_by_name` return the first image
in declared order matching the query, and `none` (not an error) when no
image matches. -/
theorem find_image_first_match_or_none (c : DfuseContent) (alt : Nat)
    (name : List Nat) :
    (c.findImageByAlt alt = none ↔
      ∀ img ∈ c.images, img.targetPrefix.bAlternateSetting ≠ alt) ∧
    (∀ img, c.findImageByAlt alt = some img →
      img.targetPrefix.bAlternateSetting = alt ∧
      ∃ l₁ l₂, c.images = l₁ ++ img :: l₂ ∧
        ∀ y ∈ l₁, y.targetPrefix.bAlternateSetting ≠ alt) ∧
    (c.findImageByName name = none ↔
      ∀ img ∈ c.images, img.targetPrefix.szTargetName ≠ name) ∧
    (∀ img, c.findImageByName name = some img →
      img.targetPrefix.szTargetName = name ∧
      ∃ l₁ l₂, c.images = l₁ ++ img :: l₂ ∧
        ∀ y ∈ l₁, y.targetPrefix.szTargetName ≠ name) := by
  refine ⟨?_, ?_, ?_, ?_⟩
  · rw [DfuseContent.findImageByAlt, List.find?_eq_none]
    simp
  · intro img h
    obtain ⟨hx, l₁, l₂, heq, hall⟩ := find?_first_match _ _ _ h
    refine ⟨by simpa using hx, l₁, l₂, heq, ?_⟩
    intro y hy
    simpa using hall y hy
  · rw [DfuseContent.findImageByName, List.find?_eq_none]
    simp
  · intro img h
    obtain ⟨hx, l₁, l₂, heq, hall⟩ := find?_first_match _ _ _ h
    refine ⟨by simpa using hx, l₁, l₂, heq, ?_⟩
    intro y hy
    simpa using hall y hy

/-- Witness for C8: on the two-image content, looking up alternate setting 2
finds the second image (whose alternate setting is indeed 2). -/
theorem find_image_first_match_or_none_witness :
    c8imageB.targetPrefix.bAlternateSetting = 2 :=
  ((find_image_first_match_or_none c8content 2 []).2.1 c8imageB (by decide)).1

/-- Taking up to the first index satisfying `p` is taking while `p` fails. -/
theorem take_findIdx_eq_takeWhile (p : Nat → Bool) (l : List Nat) :
    l.take (l.findIdx p) = l.takeWhile (fun a => !(p a)) := by
  induction l with
  | nil => simp
  | cons a t ih =>
    rw [List.findIdx_cons]
    by_cases hp : p a
    · simp [hp, List.takeWhile_cons]
    · simp [hp, List.takeWhile_cons, ih]

/-- When some element is zero, `findIdx` of "is zero" lands inside the list,
on a zero element. -/
theorem findIdx_zero_spec :
    ∀ l : List Nat, l.any (fun b => b == 0) = true →
      l.findIdx (fun b => b == 0) < l.length ∧
      l.getD (l.findIdx (fun b => b == 0)) 0 = 0 := by
  intro l
  induction l with
  | nil => intro h; simp at h
  | cons a t ih =>
    intro h
    rw [List.findIdx_cons]
    by_cases ha : a = 0
    · simp [ha]
    · have hb : (a == 0) = false := by simp [ha]
      have ht : t.any (fun b => b == 0) = true := by
        simpa [ha] using h
      obtain ⟨h1, h2⟩ := ih ht
      simp only [hb, cond_false, List.length_cons, List.getD_cons_succ]
      exact ⟨by omega, h2⟩

/-- C2 (amended to name regions that survive lossy UTF-8 conversion
unchanged, i.e. valid UTF-8): the decoded name is the 255-byte region at
offsets 11..266 truncated at the first null byte when one is present, and
the whole region verbatim otherwise. -/
theorem targetName_truncate_or_verbatim (buffer : List Nat)
    (hlen : buffer.length = 274)
    (hvalid : utf8Lossy ((buffer.drop 11).take 255) = (buffer.drop 11).take 255) :
    Option.map TargetPrefix.szTargetName (TargetPrefix.fromBytes buffer) =
      some (if ((buffer.drop 11).take 255).any (fun b => b == 0)
            then ((buffer.drop 11).take 255).takeWhile (fun b => !(b == 0))
            else (buffer.drop 11).take 255) := by
  have hrlen : ((buffer.drop 11).take 255).length = 255 := by
    simp [List.length_take, List.length_drop, hlen]
  simp only [TargetPrefix.fromBytes, hvalid]
  generalize hreg : (buffer.drop 11).take 255 = region at hrlen ⊢
  by_cases hany : region.any (fun b => b == 0) = true
  · obtain ⟨h1, h2⟩ := findIdx_zero_spec region hany
    have hbd : isCharBoundaryB region (region.findIdx (fun b => b == 0)) = true := by
      simp only [isCharBoundaryB]
      rw [h2]
      simp [h1]
    simp [hany, hbd, take_findIdx_eq_takeWhile]
  · have hbd : isCharBoundaryB region 255 = true := by
      simp [isCharBoundaryB, hrlen]
    simp [hany, hbd, List.take_of_length_le hrlen.le]

/-- Counterexample to C2 as stated: a name region of 255 `0xFF` bytes has no
null byte, yet the decoded name is not the region verbatim (every byte is
replaced by the U+FFFD encoding, and only 85 replacement characters fit in
255 bytes). -/
theorem targetName_not_verbatim_on_garbage :
    Option.map TargetPrefix.szTargetName (TargetPrefix.fromBytes c2buf) ≠
      some ((c2buf.drop 11).take 255) := by
  decide

/-- Witness for C2 (amended): a name region `"Main"`, a null byte, then 250
bytes of non-zero garbage decodes to exactly `"Main"`. -/
theorem targetName_truncate_or_verbatim_witness :
    Option.map TargetPrefix.szTargetName (TargetPrefix.fromBytes c2wbuf) =
      some (if ((c2wbuf.drop 11).take 255).any (fun b => b == 0)
            then ((c2wbuf.drop 11).take 255).takeWhile (fun b => !(b == 0))
            else (c2wbuf.drop 11).take 255) :=
  targetName_truncate_or_verbatim c2wbuf (by decide) (by decide)

/-- C9 is a code bug: on a 274-byte buffer whose name region is `'A'`
followed by 254 `0xFF` bytes there is no null byte, the lossy conversion is
763 bytes long, and byte index 255 falls inside a replacement character, so
`TargetPrefix::from_bytes` panics slicing the string (modelled by `none`). -/
theorem targetPrefix_from_bytes_panics :
    c9buf.length = 274 ∧ TargetPrefix.fromBytes c9buf = none := by
  constructor
  · decide
  · decide

/-- C7: a successfully opened file is classified DfuSe exactly when both its
first 5 bytes are `"DfuSe"` and its parsed suffix's spec code is 0x011A;
whenever either condition fails (and detection returned), it is Plain. -/
theorem open_classifies_dfuse_iff (file : List Nat) (df : DfuFile)
    (h : DfuFile.open file = Except.ok df) :
    (df.content.isDfuSe = true ↔
      (file.take 5 = dfuSeSig ∧ suffixSpecCode file = some 0x011A)) ∧
    (df.content.isDfuSe = false → df.content = FileContent.plain) := by
  obtain ⟨dfile, dcontent, dsuffix⟩ := df
  refine ⟨?_, ?_⟩
  case refine_2 =>
    intro h2
    cases dcontent with
    | plain => rfl
    | dfuSe c => simp [FileContent.isDfuSe] at h2
  rw [DfuFile.open] at h
  by_cases hs : file.length < SUFFIX_LENGTH
  · rw [if_pos hs] at h
    exact absurd h (by simp)
  rw [if_neg hs] at h
  cases hdet : detect file with
  | error e => rw [hdet] at h; exact absurd h (by simp)
  | ok b =>
    have hdet' := hdet
    rw [detect] at hdet'
    cases hre : readExact file 0 5 with
    | error e => rw [hre] at hdet'; exact absurd hdet' (by simp)
    | ok sig =>
      rw [hre] at hdet'
      cases hsf : Suffix.fromFile file with
      | error e => rw [hsf] at hdet'; exact absurd hdet' (by simp)
      | ok s =>
        rw [hsf] at hdet'
        have hb : (sig == dfuSeSig && s.bcdDFU == 0x011A) = b := by
          simpa using hdet'
        have h5 : 5 ≤ file.length := by
          simp only [SUFFIX_LENGTH, not_lt] at hs
          omega
        have hsig : sig = file.take 5 := by
          rw [readExact, if_pos (by omega)] at hre
          simp only [Except.ok.injEq] at hre
          rw [← hre, List.drop_zero]
        have hspec : suffixSpecCode file = some s.bcdDFU := by
          rw [suffixSpecCode, hsf]
        rw [hdet] at h
        cases b with
        | false =>
          simp only [Bool.false_eq_true, if_false] at h
          rw [hsf] at h
          simp only [Except.ok.injEq, DfuFile.mk.injEq] at h
          obtain ⟨rfl, rfl, rfl⟩ := h
          simp only [FileContent.isDfuSe, Bool.false_eq_true, false_iff]
          intro hrhs
          have h1 : (sig == dfuSeSig) = true := by
            rw [hsig, hrhs.1]; simp
          have h2 : (s.bcdDFU == 0x011A) = true := by
            have h2' := hrhs.2
            rw [hspec] at h2'
            simp only [Option.some.injEq] at h2'
            simp [h2']
          rw [h1, h2] at hb
          simp at hb
        | true =>
          simp only [if_true] at h
          cases hcf : DfuseContent.fromFile file with
          | error e => rw [hcf] at h; exact absurd h (by simp)
          | ok c =>
            rw [hcf] at h
            rw [hsf] at h
            simp only [Except.ok.injEq, DfuFile.mk.injEq] at h
            obtain ⟨rfl, rfl, rfl⟩ := h
            simp only [FileContent.isDfuSe, true_iff]
            rw [Bool.and_eq_true] at hb
            obtain ⟨h1, h2⟩ := hb
            constructor
            · rw [← hsig]
              exact eq_of_beq h1
            · rw [hspec]
              have hbcd : s.bcdDFU = 0x011A := by simpa using h2
              rw [hbcd]

/-- Witness for C7 at a concrete 16-byte plain file. -/
theorem open_classifies_dfuse_iff_witness :
    c7df.content.isDfuSe = true ↔
      (c7file.take 5 = dfuSeSig ∧ suffixSpecCode c7file = some 0x011A) :=
  (open_classifies_dfuse_iff c7file c7df (by decide)).1

/-- `ImageElement::from_file` records the cursor position right after the
8-byte descriptor as the data position, and advances the cursor by the
descriptor plus the declared payload size. -/
theorem imageElement_fromFile_cursor (file : List Nat) (pos : Nat)
    (elem : ImageElement) (pos' : Nat)
    (h : ImageElement.fromFile file pos = Except.ok (elem, pos')) :
    elem.dataPosition = pos + IMAGE_ELEMENT_LENGTH ∧ pos' = pos + elementSpan elem := by
  rw [ImageElement.fromFile] at h
  split at h
  · exact absurd h (by simp)
  · simp only [Except.ok.injEq, Prod.mk.injEq] at h
    obtain ⟨rfl, rfl⟩ := h
    refine ⟨rfl, ?_⟩
    simp [elementSpan, ImageElement.fromBytes]
    omega

/-- The element loop parses exactly the requested number of elements, each
descriptor starting where the previous element's payload ended, with data
positions 8 bytes past each descriptor start. -/
theorem parseElements_cursor (file : List Nat) :
    ∀ (n pos : Nat) (elems : List ImageElement) (pos' : Nat),
      parseElements file n pos = Except.ok (elems, pos') →
      elems.length = n ∧
      pos' = pos + (elems.map elementSpan).sum ∧
      ∀ k, k < elems.length →
        (elems.getD k ImageElement.default).dataPosition =
          pos + ((elems.take k).map elementSpan).sum + IMAGE_ELEMENT_LENGTH := by
  intro n
  induction n with
  | zero =>
    intro pos elems pos' h
    simp only [parseElements, Except.ok.injEq, Prod.mk.injEq] at h
    obtain ⟨rfl, rfl⟩ := h
    simp
  | succ m ih =>
    intro pos elems pos' h
    rw [parseElements] at h
    split at h
    · exact absurd h (by simp)
    next elem pos1 hef =>
      split at h
      · exact absurd h (by simp)
      next elems' pos2 hpe =>
        simp only [Except.ok.injEq, Prod.mk.injEq] at h
        obtain ⟨rfl, rfl⟩ := h
        obtain ⟨hdp, hpos1⟩ := imageElement_fromFile_cursor file pos elem pos1 hef
        obtain ⟨hlen, hpos2, hpositions⟩ := ih pos1 elems' pos2 hpe
        refine ⟨by simp [hlen], ?_, ?_⟩
        · simp only [List.map_cons, List.sum_cons]
          omega
        · intro k hk
          cases k with
          | zero =>
            simpa using hdp
          | succ j =>
            have hj : j < elems'.length := by simpa using hk
            have := hpositions j hj
            simp only [List.getD_cons_succ, List.take_succ_cons, List.map_cons,
              List.sum_cons]
            omega

/-- `TargetPrefix::from_file` advances the cursor by exactly 274 bytes. -/
theorem targetPrefix_fromFile_cursor (file : List Nat) (pos : Nat)
    (tp : TargetPrefix) (pos' : Nat)
    (h : TargetPrefix.fromFile file pos = Except.ok (tp, pos')) :
    pos' = pos + TARGET_PREFIX_LENGTH := by
  rw [TargetPrefix.fromFile] at h
  split at h
  · exact absurd h (by simp)
  · split at h
    · exact absurd h (by simp)
    · split at h
      · simp only [Except.ok.injEq, Prod.mk.injEq] at h
        exact h.2.symm
      · exact absurd h (by simp)

/-- `Image::from_file`: the parsed image has exactly `dwNbElements` elements,
the cursor advances by the image's span, and each element's data position
sits 8 bytes past its descriptor, which follows the 274-byte header and all
previous elements. -/
theorem image_fromFile_cursor (file : List Nat) (pos : Nat) (img : Image)
    (pos' : Nat) (h : Image.fromFile file pos = Except.ok (img, pos')) :
    img.imageElements.length = img.targetPrefix.dwNbElements ∧
    pos' = pos + imageSpan img ∧
    ∀ k, k < img.imageElements.length →
      (img.imageElements.getD k ImageElement.default).dataPosition =
        pos + TARGET_PREFIX_LENGTH +
          ((img.imageElements.take k).map elementSpan).sum + IMAGE_ELEMENT_LENGTH := by
  rw [Image.fromFile] at h
  split at h
  · exact absurd h (by simp)
  next tp pos1 htp =>
    split at h
    · exact absurd h (by simp)
    next elems pos2 hpe =>
      simp only [Except.ok.injEq, Prod.mk.injEq] at h
      obtain ⟨rfl, rfl⟩ := h
      have hpos1 := targetPrefix_fromFile_cursor file pos tp pos1 htp
      obtain ⟨hlen, hpos2, hpositions⟩ :=
        parseElements_cursor file tp.dwNbElements pos1 elems pos2 hpe
      refine ⟨hlen, ?_, ?_⟩
      · simp only [imageSpan]
        omega
      · intro k hk
        dsimp only at hk ⊢
        have := hpositions k hk
        omega

/-- The image loop parses exactly the requested number of images, threading
the cursor image after image. -/
theorem parseImages_cursor (file : List Nat) :
    ∀ (n pos : Nat) (imgs : List Image) (pos' : Nat),
      parseImages file n pos = Except.ok (imgs, pos') →
      imgs.length = n ∧
      pos' = pos + (imgs.map imageSpan).sum ∧
      (∀ i, i < imgs.length →
        (imgs.getD i Image.default).imageElements.length =
          (imgs.getD i Image.default).targetPrefix.dwNbElements) ∧
      ∀ i, i < imgs.length → ∀ k,
        k < (imgs.getD i Image.default).imageElements.length →
        ((imgs.getD i Image.default).imageElements.getD k ImageElement.default).dataPosition =
          pos + ((imgs.take i).map imageSpan).sum + TARGET_PREFIX_LENGTH +
          (((imgs.getD i Image.default).imageElements.take k).map elementSpan).sum +
          IMAGE_ELEMENT_LENGTH := by
  intro n
  induction n with
  | zero =>
    intro pos imgs pos' h
    simp only [parseImages, Except.ok.injEq, Prod.mk.injEq] at h
    obtain ⟨rfl, rfl⟩ := h
    simp
  | succ m ih =>
    intro pos imgs pos' h
    rw [parseImages] at h
    split at h
    · exact absurd h (by simp)
    next img pos1 hif =>
      split at h
      · exact absurd h (by simp)
      next imgs' pos2 hpi =>
        simp only [Except.ok.injEq, Prod.mk.injEq] at h
        obtain ⟨rfl, rfl⟩ := h
        obtain ⟨hcnt, hpos1, hinner⟩ := image_fromFile_cursor file pos img pos1 hif
        obtain ⟨hlen, hpos2, hcnts, hpositions⟩ := ih pos1 imgs' pos2 hpi
        refine ⟨by simp [hlen], ?_, ?_, ?_⟩
        · simp only [List.map_cons, List.sum_cons]
          omega
        · intro i hi
          cases i with
          | zero => simpa using hcnt
          | succ j =>
            have hj : j < imgs'.length := by simpa using hi
            simpa using hcnts j hj
        · intro i hi k hk
          cases i with
          | zero =>
            simp only [List.getD_cons_zero] at hk ⊢
            have := hinner k hk
            simp only [List.take_zero, List.map_nil, List.sum_nil]
            omega
          | succ j =>
            have hj : j < imgs'.length := by simpa using hi
            simp only [List.getD_cons_succ] at hk ⊢
            have := hpositions j hj k hk
            simp only [List.take_succ_cons, List.map_cons, List.sum_cons]
            omega

/-- C1: for every file whose DfuSe content parses, the structure contains
exactly `bTargets` images, each image exactly its header's `dwNbElements`
elements, and the byte cursor semantics hold: it starts at 11, each target
header consumes 274 bytes, each element consumes 8 bytes plus its declared
size, and each element's `data_position` is the offset right after its
8-byte descriptor. -/
theorem dfuse_parse_cursor_invariant (file : List Nat) (c : DfuseContent)
    (h : DfuseContent.fromFile file = Except.ok c) :
    c.images.length = c.dfusePrefix.bTargets ∧
    (∀ i, i < c.images.length →
      (c.images.getD i Image.default).imageElements.length =
        (c.images.getD i Image.default).targetPrefix.dwNbElements) ∧
    ∀ i, i < c.images.length → ∀ k,
      k < (c.images.getD i Image.default).imageElements.length →
      ((c.images.getD i Image.default).imageElements.getD k
          ImageElement.default).dataPosition =
        PREFIX_LENGTH + ((c.images.take i).map imageSpan).sum +
        TARGET_PREFIX_LENGTH +
        (((c.images.getD i Image.default).imageElements.take k).map elementSpan).sum +
        IMAGE_ELEMENT_LENGTH := by
  rw [DfuseContent.fromFile] at h
  by_cases hlen : file.length < PREFIX_LENGTH + 16
  · rw [if_pos hlen] at h
    exact absurd h (by simp)
  rw [if_neg hlen] at h
  split at h
  · exact absurd h (by simp)
  next pfx hpf =>
    split at h
    · exact absurd h (by simp)
    next imgs pend hpi =>
      simp only [Except.ok.injEq] at h
      subst h
      obtain ⟨hlen', _, hcnts, hpositions⟩ :=
        parseImages_cursor file pfx.bTargets PREFIX_LENGTH imgs pend hpi
      exact ⟨hlen', hcnts, hpositions⟩

/-- Witness for C1 at the concrete 295-byte DfuSe file: its single element's
data position is 11 + 274 + 8 = 293. -/
theorem dfuse_parse_cursor_invariant_witness :
    ((c1content.images.getD 0 Image.default).imageElements.getD 0
        ImageElement.default).dataPosition =
      PREFIX_LENGTH + ((c1content.images.take 0).map imageSpan).sum +
      TARGET_PREFIX_LENGTH +
      (((c1content.images.getD 0 Image.default).imageElements.take 0).map
          elementSpan).sum +
      IMAGE_ELEMENT_LENGTH :=
  (dfuse_parse_cursor_invariant c1file c1content (by decide)).2.2 0 (by decide)
    0 (by decide)

/-- Splitting a file into body, 12-byte suffix head, and 4-byte stored CRC:
suffix parsing decodes every field except `dwCRC` from the suffix head, and
`dwCRC` from the last 4 bytes. -/
theorem suffix_fromFile_split (body s12 crc : List Nat)
    (h12 : s12.length = 12) (hc : crc.length = 4) :
    Suffix.fromFile (body ++ s12 ++ crc) =
      if utf8Lossy ((s12.drop 8).take 3) = ufdSig
      then Except.ok
        { bcdDevice := le16 (s12.getD 0 0) (s12.getD 1 0)
          idProduct := le16 (s12.getD 2 0) (s12.getD 3 0)
          idVendor := le16 (s12.getD 4 0) (s12.getD 5 0)
          bcdDFU := le16 (s12.getD 6 0) (s12.getD 7 0)
          ucDFUSignature := utf8Lossy ((s12.drop 8).take 3)
          bLength := s12.getD 11 0
          dwCRC := le32 (crc.getD 0 0) (crc.getD 1 0) (crc.getD 2 0) (crc.getD 3 0) }
      else Except.error Err.invalidSuffixSignature := by
  have hlen : (body ++ s12 ++ crc).length = body.length + 16 := by
    simp [h12, hc]
  have hbuf : ((body ++ s12 ++ crc).drop ((body ++ s12 ++ crc).length - 16)).take 16 =
      s12 ++ crc := by
    rw [hlen]
    have h0 : body.length + 16 - 16 = body.length := by omega
    rw [h0, List.append_assoc, List.drop_left]
    exact List.take_of_length_le (by simp [h12, hc])
  have hfb : Suffix.fromBytes (s12 ++ crc) =
      { bcdDevice := le16 (s12.getD 0 0) (s12.getD 1 0)
        idProduct := le16 (s12.getD 2 0) (s12.getD 3 0)
        idVendor := le16 (s12.getD 4 0) (s12.getD 5 0)
        bcdDFU := le16 (s12.getD 6 0) (s12.getD 7 0)
        ucDFUSignature := utf8Lossy ((s12.drop 8).take 3)
        bLength := s12.getD 11 0
        dwCRC := le32 (crc.getD 0 0) (crc.getD 1 0) (crc.getD 2 0) (crc.getD 3 0) } := by
    have hdrop8 : ((s12 ++ crc).drop 8).take 3 = (s12.drop 8).take 3 := by
      rw [List.drop_append_of_le_length (by omega)]
      exact List.take_append_of_le_length (by simp [h12])
    rw [Suffix.fromBytes, hdrop8]
    have hg : ∀ n, n < 12 → (s12 ++ crc).getD n 0 = s12.getD n 0 := by
      intro n hn
      exact List.getD_append s12 crc 0 n (by omega)
    have hr : ∀ n, (s12 ++ crc).getD (12 + n) 0 = crc.getD n 0 := by
      intro n
      rw [List.getD_append_right s12 crc 0 (12 + n) (by omega), h12]
      congr 1
      omega
    rw [hg 0 (by norm_num), hg 1 (by norm_num), hg 2 (by norm_num),
      hg 3 (by norm_num), hg 4 (by norm_num), hg 5 (by norm_num),
      hg 6 (by norm_num), hg 7 (by norm_num), hg 11 (by norm_num)]
    rw [show (12 : Nat) = 12 + 0 by rfl] at hr
    have h12' : (s12 ++ crc).getD 12 0 = crc.getD 0 0 := by
      rw [List.getD_append_right s12 crc 0 12 (by omega), h12]
    have h13' : (s12 ++ crc).getD 13 0 = crc.getD 1 0 := by
      rw [List.getD_append_right s12 crc 0 13 (by omega), h12]
    have h14' : (s12 ++ crc).getD 14 0 = crc.getD 2 0 := by
      rw [List.getD_append_right s12 crc 0 14 (by omega), h12]
    have h15' : (s12 ++ crc).getD 15 0 = crc.getD 3 0 := by
      rw [List.getD_append_right s12 crc 0 15 (by omega), h12]
    rw [h12', h13', h14', h15']
  rw [Suffix.fromFile]
  rw [if_neg (by rw [hlen]; simp only [SUFFIX_LENGTH]; omega)]
  simp only [SUFFIX_LENGTH]
  rw [hbuf, hfb]

/-- Detection on a split file, when the suffix signature is good: the
verdict depends only on the first 5 bytes and the suffix head's spec code. -/
theorem detect_split (body s12 crc : List Nat)
    (h12 : s12.length = 12) (hc : crc.length = 4)
    (hsig : utf8Lossy ((s12.drop 8).take 3) = ufdSig) :
    detect (body ++ s12 ++ crc) =
      Except.ok ((body ++ s12 ++ crc).take 5 == dfuSeSig &&
        le16 (s12.getD 6 0) (s12.getD 7 0) == 0x011A) := by
  have h5 : readExact (body ++ s12 ++ crc) 0 5 =
      Except.ok ((body ++ s12 ++ crc).take 5) := by
    rw [readExact, if_pos (by simp [h12, hc]), List.drop_zero]
  rw [detect, h5, suffix_fromFile_split body s12 crc h12 hc, if_pos hsig]

/-- C10 (amended): opening never checks the stored CRC32 against a computed
checksum; for a file that opens as Plain, replacing the stored 4-byte CRC
field with any other 4 bytes still opens as Plain, identically except that
the reported `dwCRC` is the new stored value.  (An extended file can fail to
reopen only because structural fields overlap the CRC bytes — see the
counterexample — never because of a checksum comparison; checksum
verification happens only in the separate `calc_crc`.) -/
theorem open_ignores_stored_crc (body s12 crc1 crc2 : List Nat)
    (h12 : s12.length = 12) (hc1 : crc1.length = 4) (hc2 : crc2.length = 4)
    (df : DfuFile) (h : DfuFile.open (body ++ s12 ++ crc1) = Except.ok df)
    (hplain : df.content = FileContent.plain) :
    DfuFile.open (body ++ s12 ++ crc2) = Except.ok
      { file := body ++ s12 ++ crc2
        content := FileContent.plain
        suffix :=
          { df.suffix with
            dwCRC := le32 (crc2.getD 0 0) (crc2.getD 1 0)
              (crc2.getD 2 0) (crc2.getD 3 0) } } := by
  obtain ⟨dfile, dcontent, dsuffix⟩ := df
  dsimp only at hplain
  subst hplain
  have hlen1 : (body ++ s12 ++ crc1).length = body.length + 16 := by
    simp [h12, hc1]
  have hlen2 : (body ++ s12 ++ crc2).length = body.length + 16 := by
    simp [h12, hc2]
  have hlt1 : ¬ (body ++ s12 ++ crc1).length < SUFFIX_LENGTH := by
    rw [hlen1]; simp only [SUFFIX_LENGTH]; omega
  have hlt2 : ¬ (body ++ s12 ++ crc2).length < SUFFIX_LENGTH := by
    rw [hlen2]; simp only [SUFFIX_LENGTH]; omega
  by_cases hsig : utf8Lossy ((s12.drop 8).take 3) = ufdSig
  case neg =>
    have hdet1 : detect (body ++ s12 ++ crc1) = Except.error Err.invalidSuffixSignature := by
      have h5 : readExact (body ++ s12 ++ crc1) 0 5 =
          Except.ok ((body ++ s12 ++ crc1).take 5) := by
        rw [readExact, if_pos (by simp [h12, hc1]), List.drop_zero]
      rw [detect, h5, suffix_fromFile_split body s12 crc1 h12 hc1, if_neg hsig]
    rw [DfuFile.open, if_neg hlt1, hdet1] at h
    exact absurd h (by simp)
  case pos =>
    have hsf1 := suffix_fromFile_split body s12 crc1 h12 hc1
    rw [if_pos hsig] at hsf1
    have hsf2 := suffix_fromFile_split body s12 crc2 h12 hc2
    rw [if_pos hsig] at hsf2
    have hd1 := detect_split body s12 crc1 h12 hc1 hsig
    have hd2 := detect_split body s12 crc2 h12 hc2 hsig
    have h5b : 5 ≤ (body ++ s12).length := by simp [h12]
    have h5eq : (body ++ s12 ++ crc2).take 5 = (body ++ s12 ++ crc1).take 5 := by
      rw [List.take_append_of_le_length h5b, List.take_append_of_le_length h5b]
    rw [h5eq] at hd2
    rw [DfuFile.open, if_neg hlt1, hd1] at h
    by_cases hb : ((body ++ s12 ++ crc1).take 5 == dfuSeSig &&
        le16 (s12.getD 6 0) (s12.getD 7 0) == 0x011A) = true
    · rw [hb] at h
      cases hcf : DfuseContent.fromFile (body ++ s12 ++ crc1) with
      | error e =>
        rw [hcf] at h
        exact absurd h (by simp)
      | ok c =>
        rw [hcf, hsf1] at h
        simp at h
    · have hb' : ((body ++ s12 ++ crc1).take 5 == dfuSeSig &&
          le16 (s12.getD 6 0) (s12.getD 7 0) == 0x011A) = false := by
        simpa using hb
      rw [hb', hsf1] at h
      simp only [Except.ok.injEq, DfuFile.mk.injEq] at h
      obtain ⟨rfl, -, rfl⟩ := h
      rw [DfuFile.open, if_neg hlt2, hd2, hb', hsf2]
      rfl

/-- Counterexample to C10 as stated: `c10file` parses successfully, but
changing only its stored CRC field (the last 4 bytes) from `[0,0,0,0]` to
`[1,0,0,0]` makes open fail — the overlapping `dwNbElements` field now
promises an element whose descriptor lies past end of file. -/
theorem open_not_crc_field_independent :
    (DfuFile.open c10file).toOption.isSome = true ∧
    DfuFile.open (c10file.take 281 ++ [1, 0, 0, 0]) = Except.error Err.ioError :=
  ⟨by decide, by decide⟩

/-- Witness for C10 (amended): a 16-byte plain file keeps opening, with only
the reported `dwCRC` changed, when its stored CRC is replaced. -/
theorem open_ignores_stored_crc_witness :
    DfuFile.open (([] : List Nat) ++ c10s12 ++ [1, 2, 3, 4]) = Except.ok
      { file := ([] : List Nat) ++ c10s12 ++ [1, 2, 3, 4]
        content := FileContent.plain
        suffix :=
          { bcdDevice := 0, idProduct := 0, idVendor := 0, bcdDFU := 256,
            ucDFUSignature := ufdSig, bLength := 16,
            dwCRC := le32 1 2 3 4 } } :=
  open_ignores_stored_crc [] c10s12 [0, 0, 0, 0] [1, 2, 3, 4]
    (by decide) (by decide) (by decide)
    { file := ([] : List Nat) ++ c10s12 ++ [0, 0, 0, 0]
      content := FileContent.plain
      suffix := { bcdDevice := 0, idProduct := 0, idVendor := 0, bcdDFU := 256,
                  ucDFUSignature := ufdSig, bLength := 16, dwCRC := 0 } }
    (by decide) rfl

